import Mathlib

/-!
Shallow embedding of the product/order CRUD backend (src/products.js,
src/orders.js, src/api.js) over an explicit application state.  The
document store (MongoDB via Mongoose) is modelled as two in-memory lists
of records; Mongoose schema validation, defaults, `find`/`sort`/`skip`/
`limit`, `findById`, `save`, `deleteOne` and `populate` are modelled
according to their documented semantics on the schemas declared in the
source.
-/

namespace CrudApp

/-- Mongoose `required` check for a string path: fails when the value is
absent (`undefined`/`null`) and also when it is the empty string
(Mongoose's `SchemaString.checkRequired` demands a non-empty string). -/
def strPresent : Option String → Bool
  | none => false
  | some s => !s.isEmpty

/-- `urls` subdocument of a Product (src/products.js schema): `regular`,
`small`, `thumb`, each a required string. -/
structure Urls where
  regular : Option String
  small : Option String
  thumb : Option String
deriving Repr, DecidableEq

/-- `links` subdocument of a Product: `self` and `html`, both required. -/
structure Links where
  self : Option String
  html : Option String
deriving Repr, DecidableEq

/-- `user` subdocument of a Product: `id`, `first_name`, `username`
required; `last_name`, `portfolio_url` optional. -/
structure UserInfo where
  id : Option String
  first_name : Option String
  last_name : Option String
  portfolio_url : Option String
  username : Option String
deriving Repr, DecidableEq

/-- A tag entry of a Product: `title` is a required string. -/
structure Tag where
  title : Option String
deriving Repr, DecidableEq

/-- A persisted Product document (src/products.js `Product` model).
`_id` is the cuid string assigned at creation. -/
structure Product where
  _id : String
  description : Option String
  alt_description : Option String
  likes : Option Int
  urls : Urls
  links : Links
  user : UserInfo
  tags : List Tag
deriving Repr, DecidableEq

/-- Mongoose validation of a Product per the schema in src/products.js:
`likes` required (a number; `0` passes), the three `urls` fields, the two
`links` fields and `user.id`/`user.first_name`/`user.username` required
strings, and each tag's `title` a required string. -/
def validateProduct (p : Product) : Bool :=
  p.likes.isSome &&
  strPresent p.urls.regular && strPresent p.urls.small && strPresent p.urls.thumb &&
  strPresent p.links.self && strPresent p.links.html &&
  strPresent p.user.id && strPresent p.user.first_name && strPresent p.user.username &&
  p.tags.all (fun t => strPresent t.title)

/-- A persisted Order document (src/orders.js `Order` model).  `status`
is stored as a plain string: the schema gives it a default of
`"CREATED"` (applied at document construction) and an `enum` validator
checked at save time, so an invalid value can exist transiently on an
unsaved document. -/
structure Order where
  _id : String
  buyerEmail : Option String
  products : List String
  status : String
deriving Repr, DecidableEq

/-- The `enum` allowed for `Order.status` in src/orders.js. -/
def statusEnum : List String := ["CREATED", "PENDING", "COMPLETED"]

/-- Mongoose validation of an Order per the schema in src/orders.js:
`buyerEmail` is a required string; `products` is an array whose ELEMENTS
each carry `required: true` — in Mongoose a per-element `required`
validator runs once per element, so an empty array passes validation
(despite the source comment "Each order must have at least one product";
requiring a non-empty array would need a custom validator); `status`
must be one of `statusEnum`. -/
def validateOrder (o : Order) : Bool :=
  strPresent o.buyerEmail &&
  o.products.all (fun s => !s.isEmpty) &&
  statusEnum.contains o.status

/-- The whole persisted state: the Product and Order collections plus a
counter feeding the cuid generator. -/
structure AppState where
  products : List Product
  orders : List Order
  nextId : Nat
deriving Repr, DecidableEq

/-- Model of `cuid()`: a fresh identifier from a counter.  Freshness with
respect to the stored collections is a property of cuid assumed as a
hypothesis where needed. -/
def genId (n : Nat) : String := "c" ++ toString n

/-- Failures a service operation can reject with: `validation` for a
Mongoose ValidationError at save time, `notFound` for the failure raised
when an `edit` target is absent (in the source the record loaded by
`get` is `null` and touching it throws). -/
inductive DbError where
  | validation
  | notFound
deriving Repr, DecidableEq

/-- Result object of Mongoose `deleteOne`: `{acknowledged, deletedCount}`. -/
structure DeleteResult where
  acknowledged : Bool
  deletedCount : Nat
deriving Repr, DecidableEq

/-- `findById` / `findOne {_id}` on the Product collection. -/
def findProduct (st : AppState) (id : String) : Option Product :=
  st.products.find? (fun p => p._id == id)

/-- `findOne {_id}` on the Order collection (without populate). -/
def findOrder (st : AppState) (id : String) : Option Order :=
  st.orders.find? (fun o => o._id == id)

/-- `.sort({_id: 1})` on a Product result set: ascending by `_id`. -/
def sortProductsById (l : List Product) : List Product :=
  l.insertionSort (fun a b => a._id ≤ b._id)

/-- `.sort({_id: 1})` on an Order result set: ascending by `_id`. -/
def sortOrdersById (l : List Order) : List Order :=
  l.insertionSort (fun a b => a._id ≤ b._id)

/-- Options accepted by `Products.list` (src/products.js): defaults
`offset = 0`, `limit = 25`; `tag` optional.  `none` models an absent
`tag`; `some ""` models passing the empty string. -/
structure ProductListOptions where
  offset : Nat := 0
  limit : Nat := 25
  tag : Option String := none
deriving Repr, DecidableEq

/-- The filter built by `Products.list`: `tag ? {tags: {$elemMatch:
{title: tag}}} : {}`.  JavaScript truthiness makes both an absent `tag`
and the empty string produce the empty (all-matching) query; otherwise
`$elemMatch` keeps products having a tag entry whose `title` equals
`tag` exactly. -/
def productQuery (tag : Option String) (p : Product) : Bool :=
  match tag with
  | none => true
  | some t => if t = "" then true else p.tags.any (fun tg => tg.title == some t)

/-- `Products.list` (src/products.js lines 67–87): filter by the tag
query, sort by `_id` ascending, skip `offset`, return at most `limit`. -/
def listProducts (st : AppState) (o : ProductListOptions) : List Product :=
  ((sortProductsById (st.products.filter (productQuery o.tag))).drop o.offset).take o.limit

/-- `Products.get` (src/products.js lines 94–98): `findById`, yielding
the record or the not-found signal (`none`, JS `null`). -/
def getProduct (st : AppState) (id : String) : Option Product :=
  findProduct st id

/-- Creation payload for a Product: the schema fields minus the
generated `_id`. -/
structure ProductFields where
  description : Option String := none
  alt_description : Option String := none
  likes : Option Int := none
  urls : Urls := ⟨none, none, none⟩
  links : Links := ⟨none, none⟩
  user : UserInfo := ⟨none, none, none, none, none⟩
  tags : List Tag := []
deriving Repr, DecidableEq

/-- `new Product(fields)` with the generated `_id`. -/
def mkProduct (id : String) (f : ProductFields) : Product :=
  ⟨id, f.description, f.alt_description, f.likes, f.urls, f.links, f.user, f.tags⟩

/-- `Products.create` (src/products.js lines 105–109): build the
document with a fresh cuid, validate on `save`; on success append to
the collection and return the stored record, otherwise reject with a
ValidationError leaving the collection unchanged. -/
def createProduct (st : AppState) (f : ProductFields) : Except DbError Product × AppState :=
  let p := mkProduct (genId st.nextId) f
  if validateProduct p then
    (Except.ok p,
      { st with products := st.products ++ [p], nextId := st.nextId + 1 })
  else
    (Except.error DbError.validation, st)

/-- A partial change set for a Product, as sent in a PUT body: `some v`
models the key being present with value `v`, `none` the key being
absent.  Nested objects (`urls`, `links`, `user`, `tags`) are replaced
whole, matching `product[key] = change[key]`. -/
structure ProductChange where
  description : Option String := none
  alt_description : Option String := none
  likes : Option Int := none
  urls : Option Urls := none
  links : Option Links := none
  user : Option UserInfo := none
  tags : Option (List Tag) := none
deriving Repr, DecidableEq

/-- `Object.keys(change).forEach(key => product[key] = change[key])`:
each key present in the change overwrites the corresponding field;
absent keys leave prior values (shallow field replace, not deep merge). -/
def applyProductChange (p : Product) (c : ProductChange) : Product :=
  { p with
    description := match c.description with | some v => some v | none => p.description
    alt_description := match c.alt_description with | some v => some v | none => p.alt_description
    likes := match c.likes with | some v => some v | none => p.likes
    urls := match c.urls with | some v => v | none => p.urls
    links := match c.links with | some v => v | none => p.links
    user := match c.user with | some v => v | none => p.user
    tags := match c.tags with | some v => v | none => p.tags }

/-- `Products.edit` (src/products.js lines 117–130): load via `get`
(absent target fails: the null record cannot be written or saved),
overwrite the keys present in the change, re-validate on `save`; on
success store the updated record back under its `_id` and return it. -/
def editProduct (st : AppState) (id : String) (c : ProductChange) :
    Except DbError Product × AppState :=
  match findProduct st id with
  | none => (Except.error DbError.notFound, st)
  | some p =>
    let p' := applyProductChange p c
    if validateProduct p' then
      (Except.ok p',
        { st with products := st.products.map (fun q => if q._id == id then p' else q) })
    else
      (Except.error DbError.validation, st)

/-- `Products.destroy` (src/products.js lines 137–140):
`Product.deleteOne({_id})` removes the (at most one, `_id` being
unique) matching document and returns the driver's result object; it
succeeds whether or not anything matched. -/
def destroyProduct (st : AppState) (id : String) : DeleteResult × AppState :=
  (⟨true, if (st.products.find? (fun p => p._id == id)).isSome then 1 else 0⟩,
    { st with products := st.products.eraseP (fun p => p._id == id) })

/-- Options accepted by `Orders.list` (src/orders.js): defaults
`offset = 0`, `limit = 25`; `productId` and `status` optional, with
`some ""` modelling an empty-string query parameter. -/
structure OrderListOptions where
  offset : Nat := 0
  limit : Nat := 25
  productId : Option String := none
  status : Option String := none
deriving Repr, DecidableEq

/-- The combined filter built by `Orders.list`: `productId ? {products:
productId} : {}` spread together with `status ? {status} : {}`.
JavaScript truthiness drops an absent or empty-string filter; otherwise
`{products: productId}` matches orders whose `products` array contains
the identifier, and `{status}` matches the exact status string. -/
def orderQuery (productId status : Option String) (o : Order) : Bool :=
  (match productId with
   | none => true
   | some pid => if pid = "" then true else o.products.contains pid) &&
  (match status with
   | none => true
   | some s => if s = "" then true else o.status == s)

/-- `Orders.list` (src/orders.js lines 40–58): filter by the combined
query, sort by `_id` ascending, skip `offset`, return at most `limit`. -/
def listOrders (st : AppState) (o : OrderListOptions) : List Order :=
  ((sortOrdersById (st.orders.filter (orderQuery o.productId o.status))).drop o.offset).take o.limit

/-- The denormalized view produced by `populate('products')`: each
product id replaced by the referenced Product document. -/
structure PopulatedOrder where
  _id : String
  buyerEmail : Option String
  products : List Product
  status : String
deriving Repr, DecidableEq

/-- `populate('products')` on an order: look up each referenced id in
the Product collection; ids whose document no longer exists are dropped
from the populated array (Mongoose filters out unmatched refs of an
array populate by default). -/
def populateOrder (st : AppState) (o : Order) : PopulatedOrder :=
  ⟨o._id, o.buyerEmail, o.products.filterMap (fun pid => findProduct st pid), o.status⟩

/-- `Orders.get` (src/orders.js lines 74–82): `findById` plus
`populate('products')`, yielding the denormalized order or `none`. -/
def getOrder (st : AppState) (id : String) : Option PopulatedOrder :=
  (findOrder st id).map (populateOrder st)

/-- Creation payload for an Order: `buyerEmail`, `products` (Mongoose
defaults an absent array to `[]`), optional `status`. -/
structure OrderFields where
  buyerEmail : Option String := none
  products : List String := []
  status : Option String := none
deriving Repr, DecidableEq

/-- `new Order(fields)` with the generated `_id`: the schema default
sets `status` to `"CREATED"` when the field is omitted. -/
def mkOrder (id : String) (f : OrderFields) : Order :=
  ⟨id, f.buyerEmail, f.products, f.status.getD "CREATED"⟩

/-- `Orders.create` (src/orders.js lines 89–97): build the document
with a fresh cuid, validate on `save`; on success append to the
collection, populate `products`, and return the denormalized order;
a ValidationError leaves the collection unchanged. -/
def createOrder (st : AppState) (f : OrderFields) :
    Except DbError PopulatedOrder × AppState :=
  let o := mkOrder (genId st.nextId) f
  if validateOrder o then
    (Except.ok (populateOrder st o),
      { st with orders := st.orders ++ [o], nextId := st.nextId + 1 })
  else
    (Except.error DbError.validation, st)

/-- A partial change set for an Order, as sent in a PUT body. -/
structure OrderChange where
  buyerEmail : Option String := none
  products : Option (List String) := none
  status : Option String := none
deriving Repr, DecidableEq

/-- Key-present overwrite of an Order, as in `applyProductChange`. -/
def applyOrderChange (o : Order) (c : OrderChange) : Order :=
  { o with
    buyerEmail := match c.buyerEmail with | some v => some v | none => o.buyerEmail
    products := match c.products with | some v => v | none => o.products
    status := match c.status with | some v => v | none => o.status }

/-- `Orders.edit` (src/orders.js lines 105–118): load the stored order
(absent target fails: the null record cannot be written or saved),
overwrite the keys present in the change, re-validate on `save`; on
success store the updated order back under its `_id` and return it;
a failed validation leaves the stored record untouched. -/
def editOrder (st : AppState) (id : String) (c : OrderChange) :
    Except DbError Order × AppState :=
  match findOrder st id with
  | none => (Except.error DbError.notFound, st)
  | some o =>
    let o' := applyOrderChange o c
    if validateOrder o' then
      (Except.ok o',
        { st with orders := st.orders.map (fun q => if q._id == id then o' else q) })
    else
      (Except.error DbError.validation, st)

/-- `Orders.destroy` (src/orders.js lines 125–128):
`Order.deleteOne({_id})`, result discarded (the function returns
`undefined`); succeeds whether or not anything matched. -/
def destroyOrder (st : AppState) (id : String) : AppState :=
  { st with orders := st.orders.eraseP (fun o => o._id == id) }

/-- A JSON response body emitted by the delete handlers in src/api.js. -/
inductive JsonBody where
  | successTrue
  | deleteResult (r : DeleteResult)
deriving Repr, DecidableEq

/-- `deleteProduct` handler (src/api.js lines 77–80): calls
`Products.destroy` and serializes ITS RETURN VALUE — the `deleteOne`
result object — as the response body. -/
def apiDeleteProduct (st : AppState) (id : String) : JsonBody × AppState :=
  let r := destroyProduct st id
  (JsonBody.deleteResult r.1, r.2)

/-- `deleteOrder` handler (src/api.js lines 130–133): calls
`Orders.destroy`, discards its result and responds `{success: true}`. -/
def apiDeleteOrder (st : AppState) (id : String) : JsonBody × AppState :=
  (JsonBody.successTrue, destroyOrder st id)

/-- A concrete valid Product, used to instantiate the theorems. -/
def prodA : Product :=
  ⟨"pA", some "desc", none, some 3,
    ⟨some "urlR", some "urlS", some "urlT"⟩,
    ⟨some "linkSelf", some "linkHtml"⟩,
    ⟨some "u1", some "Ann", none, none, some "ann"⟩,
    [⟨some "studio"⟩]⟩

/-- A second concrete valid Product with no tags. -/
def prodB : Product :=
  ⟨"pB", none, none, some 0,
    ⟨some "r2", some "s2", some "t2"⟩,
    ⟨some "sf2", some "h2"⟩,
    ⟨some "u2", some "Bob", none, none, some "bob"⟩,
    []⟩

/-- A concrete valid Order referencing `prodA`. -/
def ordA : Order := ⟨"oA", some "a@b.com", ["pA"], "CREATED"⟩

/-- A concrete application state holding `prodA`, `prodB` and `ordA`. -/
def stA : AppState := ⟨[prodA, prodB], [ordA], 7⟩

/-- A concrete valid Product creation payload. -/
def fieldsC : ProductFields :=
  { likes := some 1,
    urls := ⟨some "ur", some "us", some "ut"⟩,
    links := ⟨some "ls", some "lh"⟩,
    user := ⟨some "uid", some "Fay", none, none, some "fay"⟩ }

/-- A concrete valid Order creation payload referencing `prodA`,
with `status` omitted. -/
def ordFields : OrderFields :=
  { buyerEmail := some "a@b.com", products := ["pA"], status := none }

instance : IsTotal Product (fun a b => a._id ≤ b._id) :=
  ⟨fun a b => le_total a._id b._id⟩

instance : IsTrans Product (fun a b => a._id ≤ b._id) :=
  ⟨fun _ _ _ h1 h2 => le_trans h1 h2⟩

instance : IsTotal Order (fun a b => a._id ≤ b._id) :=
  ⟨fun a b => le_total a._id b._id⟩

instance : IsTrans Order (fun a b => a._id ≤ b._id) :=
  ⟨fun _ _ _ h1 h2 => le_trans h1 h2⟩

/-- Writing a record back under its key: if `find?` by key located `p`,
then after replacing the keyed slot with `p'` (carrying the same key),
`find?` locates `p'`. -/
theorem find?_map_replace {α : Type} (key : α → String) (id : String) (p p' : α) :
    ∀ l : List α, l.find? (fun q => key q == id) = some p → key p' = key p →
      (l.map (fun q => if key q == id then p' else q)).find? (fun q => key q == id) = some p'
  | [], h, _ => by simp at h
  | a :: t, h, hk => by
    by_cases ha : (key a == id) = true
    · have hap : a = p := by
        rw [List.find?_cons_of_pos (p := fun q => key q == id) t ha] at h
        exact Option.some.inj h
      have hk' : (key p' == id) = true := by
        subst hap
        rw [hk]
        exact ha
      simp only [List.map_cons, if_pos ha]
      exact List.find?_cons_of_pos (p := fun q => key q == id) _ hk'
    · rw [List.find?_cons_of_neg (p := fun q => key q == id) t ha] at h
      simp only [List.map_cons, if_neg ha]
      rw [List.find?_cons_of_neg (p := fun q => key q == id) _ ha]
      exact find?_map_replace key id p p' t h hk

/-- With pairwise-distinct keys, deleting the first record matching a
key leaves no record matching that key (`deleteOne` against a unique
`_id` index empties all matches). -/
theorem find?_eraseP_key {α : Type} (key : α → String) (id : String) :
    ∀ l : List α, l.Pairwise (fun a b => key a ≠ key b) →
      (l.eraseP (fun q => key q == id)).find? (fun q => key q == id) = none
  | [], _ => rfl
  | a :: t, h => by
    rcases List.pairwise_cons.mp h with ⟨hhead, htail⟩
    by_cases ha : (key a == id) = true
    · rw [List.eraseP_cons_of_pos (p := fun q => key q == id) ha]
      apply List.find?_eq_none.mpr
      intro x hx
      have hax : key a ≠ key x := hhead x hx
      have haeq : key a = id := by simpa using ha
      simp only [beq_iff_eq]
      rw [← haeq]
      exact fun hxa => hax hxa.symm
    · rw [List.eraseP_cons_of_neg (p := fun q => key q == id) (by simpa using ha)]
      rw [List.find?_cons_of_neg (p := fun q => key q == id) _ ha]
      exact find?_eraseP_key key id t htail

/-- When every element of `l` is in `g`'s domain, `filterMap g` drops
nothing and pairs each element with its image. -/
theorem forall2_filterMap_of_isSome {α β : Type} (g : α → Option β) :
    ∀ l : List α, (∀ x ∈ l, (g x).isSome = true) →
      List.Forall₂ (fun x y => g x = some y) l (l.filterMap g)
  | [], _ => List.Forall₂.nil
  | a :: t, h => by
    have ha : (g a).isSome = true := h a (List.mem_cons_self a t)
    rcases Option.isSome_iff_exists.mp ha with ⟨b, hb⟩
    rw [List.filterMap_cons, hb]
    exact List.Forall₂.cons hb
      (forall2_filterMap_of_isSome g t (fun x hx => h x (List.mem_cons_of_mem a hx)))

/-- C1: every order write (create or edit) carrying a status outside
{CREATED, PENDING, COMPLETED} fails validation and is not persisted:
`create` rejects with a ValidationError leaving the state unchanged, and
`edit` (in particular with status "BOGUS") returns an error with the
state — hence the stored record and its prior status — unchanged. -/
theorem claim_C1 (st : AppState) (f : OrderFields) (c : OrderChange) (id s : String)
    (hs : statusEnum.contains s = false) :
    (f.status = some s → createOrder st f = (Except.error DbError.validation, st)) ∧
    (c.status = some s →
      (editOrder st id c).2 = st ∧ ∃ e, (editOrder st id c).1 = Except.error e) := by
  constructor
  · intro hf
    have hstat : (mkOrder (genId st.nextId) f).status = s := by simp [mkOrder, hf]
    have hv : validateOrder (mkOrder (genId st.nextId) f) = false := by
      unfold validateOrder
      rw [hstat, hs, Bool.and_false]
    simp [createOrder, hv]
  · intro hc
    cases hfind : findOrder st id with
    | none => refine ⟨?_, DbError.notFound, ?_⟩ <;> simp [editOrder, hfind]
    | some o =>
      have hstat : (applyOrderChange o c).status = s := by simp [applyOrderChange, hc]
      have hv : validateOrder (applyOrderChange o c) = false := by
        unfold validateOrder
        rw [hstat, hs, Bool.and_false]
      refine ⟨?_, DbError.validation, ?_⟩ <;> simp [editOrder, hfind, hv]

/-- Witness for C1 at a concrete state: creating with status "BOGUS"
rejects leaving the state unchanged, and editing order "oA" to status
"BOGUS" errors with the state unchanged. -/
theorem claim_C1_witness :
    createOrder stA { buyerEmail := some "x@y.z", products := ["pA"], status := some "BOGUS" }
      = (Except.error DbError.validation, stA) ∧
    ((editOrder stA "oA" { status := some "BOGUS" }).2 = stA ∧
      ∃ e, (editOrder stA "oA" { status := some "BOGUS" }).1 = Except.error e) := by
  have h := claim_C1 stA
    { buyerEmail := some "x@y.z", products := ["pA"], status := some "BOGUS" }
    { status := some "BOGUS" } "oA" "BOGUS" (by decide)
  exact ⟨h.1 rfl, h.2 rfl⟩

/-- C3 at the failing input: `Orders.create` with a present buyerEmail
but an EMPTY products array succeeds and persists the order — the
per-element `required` validator of the `products` array passes
vacuously on `[]`, so the claimed ValidationError does not occur. -/
theorem claim_C3 :
    (createOrder ⟨[], [], 0⟩ { buyerEmail := some "a@b.com", products := [], status := none }).1
      = Except.ok ⟨genId 0, some "a@b.com", [], "CREATED"⟩ ∧
    (createOrder ⟨[], [], 0⟩ { buyerEmail := some "a@b.com", products := [], status := none }).2.orders
      = [⟨genId 0, some "a@b.com", [], "CREATED"⟩] := by
  constructor <;> rfl

/-- C4 counterexample: the product delete handler does NOT respond
`{success:true}` — it echoes the datastore's `deleteOne` result. -/
theorem claim_C4_cex :
    (apiDeleteProduct ⟨[], [], 0⟩ "x").1 ≠ JsonBody.successTrue := by
  decide

/-- C4 amended: the order delete handler always responds
`{success:true}`, while the product delete handler responds with the
`deleteOne` result object returned by `Products.destroy`. -/
theorem claim_C4 :
    ∀ (st : AppState) (id : String),
      (apiDeleteOrder st id).1 = JsonBody.successTrue ∧
      (apiDeleteProduct st id).1 = JsonBody.deleteResult (destroyProduct st id).1 :=
  fun _ _ => ⟨rfl, rfl⟩

/-- C10: an empty-string filter parameter is falsy in the query
construction, so it is treated exactly like an absent parameter: the
paginated, unfiltered result is returned — for `tag` on products and
for `productId` and `status` on orders. -/
theorem claim_C10 (st : AppState) (off lim : Nat) :
    listProducts st ⟨off, lim, some ""⟩ = listProducts st ⟨off, lim, none⟩ ∧
    listOrders st ⟨off, lim, some "", none⟩ = listOrders st ⟨off, lim, none, none⟩ ∧
    listOrders st ⟨off, lim, none, some ""⟩ = listOrders st ⟨off, lim, none, none⟩ ∧
    listOrders st ⟨off, lim, some "", some ""⟩ = listOrders st ⟨off, lim, none, none⟩ := by
  have hp : productQuery (some "") = productQuery none := by
    funext p; simp [productQuery]
  have h1 : orderQuery (some "") none = orderQuery none none := by
    funext o; simp [orderQuery]
  have h2 : orderQuery none (some "") = orderQuery none none := by
    funext o; simp [orderQuery]
  have h3 : orderQuery (some "") (some "") = orderQuery none none := by
    funext o; simp [orderQuery]
  refine ⟨?_, ?_, ?_, ?_⟩ <;> simp [listProducts, listOrders, hp, h1, h2, h3]

/-- C2: on both services, `edit` of an absent id fails with the
not-found error leaving the state unchanged; `edit` of a present id
overwrites exactly the keys present in the change set onto the loaded
record (shallow field replace, `applyProductChange`/`applyOrderChange`),
re-validates, persists the updated record under its id, and returns it. -/
theorem claim_C2 (st : AppState) (id : String) (cp : ProductChange) (co : OrderChange)
    (p : Product) (o : Order) :
    (findProduct st id = none → editProduct st id cp = (Except.error DbError.notFound, st)) ∧
    (findOrder st id = none → editOrder st id co = (Except.error DbError.notFound, st)) ∧
    (findProduct st id = some p → validateProduct (applyProductChange p cp) = true →
      (editProduct st id cp).1 = Except.ok (applyProductChange p cp) ∧
      findProduct (editProduct st id cp).2 id = some (applyProductChange p cp)) ∧
    (findOrder st id = some o → validateOrder (applyOrderChange o co) = true →
      (editOrder st id co).1 = Except.ok (applyOrderChange o co) ∧
      findOrder (editOrder st id co).2 id = some (applyOrderChange o co)) := by
  refine ⟨?_, ?_, ?_, ?_⟩
  · intro h; simp [editProduct, h]
  · intro h; simp [editOrder, h]
  · intro h hv
    have hedit : editProduct st id cp =
        (Except.ok (applyProductChange p cp),
          { st with products :=
              st.products.map (fun q => if q._id == id then applyProductChange p cp else q) }) := by
      simp [editProduct, h, hv]
    rw [hedit]
    exact ⟨rfl, find?_map_replace (fun q : Product => q._id) id p
      (applyProductChange p cp) st.products h rfl⟩
  · intro h hv
    have hedit : editOrder st id co =
        (Except.ok (applyOrderChange o co),
          { st with orders :=
              st.orders.map (fun q => if q._id == id then applyOrderChange o co else q) }) := by
      simp [editOrder, h, hv]
    rw [hedit]
    exact ⟨rfl, find?_map_replace (fun q : Order => q._id) id o
      (applyOrderChange o co) st.orders h rfl⟩

/-- Witness for C2: editing absent id "zz" fails with the not-found
error on both services; editing present ids overwrites, persists and
returns the updated records. -/
theorem claim_C2_witness :
    editProduct stA "zz" {} = (Except.error DbError.notFound, stA) ∧
    editOrder stA "zz" {} = (Except.error DbError.notFound, stA) ∧
    ((editProduct stA "pA" { likes := some 9 }).1
        = Except.ok (applyProductChange prodA { likes := some 9 }) ∧
      findProduct (editProduct stA "pA" { likes := some 9 }).2 "pA"
        = some (applyProductChange prodA { likes := some 9 })) ∧
    ((editOrder stA "oA" { status := some "PENDING" }).1
        = Except.ok (applyOrderChange ordA { status := some "PENDING" }) ∧
      findOrder (editOrder stA "oA" { status := some "PENDING" }).2 "oA"
        = some (applyOrderChange ordA { status := some "PENDING" })) := by
  have h1 := claim_C2 stA "zz" {} {} prodA ordA
  have h2 := claim_C2 stA "pA" { likes := some 9 } {} prodA ordA
  have h3 := claim_C2 stA "oA" {} { status := some "PENDING" } prodA ordA
  exact ⟨h1.1 (by decide), h1.2.1 (by decide),
    h2.2.2.1 (by decide) (by decide), h3.2.2.2 (by decide) (by decide)⟩

/-- C6: for every valid product payload and fresh generated id,
`create` succeeds returning the input fields plus the generated id, and
a subsequent `get` on that id returns that same record. -/
theorem claim_C6 (st : AppState) (f : ProductFields)
    (hval : validateProduct (mkProduct (genId st.nextId) f) = true)
    (hfresh : findProduct st (genId st.nextId) = none) :
    (createProduct st f).1 = Except.ok (mkProduct (genId st.nextId) f) ∧
    getProduct (createProduct st f).2 (genId st.nextId)
      = some (mkProduct (genId st.nextId) f) := by
  constructor
  · simp [createProduct, hval]
  · have hst : (createProduct st f).2.products
        = st.products ++ [mkProduct (genId st.nextId) f] := by
      simp [createProduct, hval]
    have hfresh' : st.products.find? (fun q => q._id == genId st.nextId) = none := hfresh
    show ((createProduct st f).2.products).find? (fun q => q._id == genId st.nextId)
      = some (mkProduct (genId st.nextId) f)
    rw [hst, List.find?_append, hfresh']
    simp [mkProduct]

/-- Witness for C6 on the empty state with a concrete valid payload. -/
theorem claim_C6_witness :
    (createProduct ⟨[], [], 0⟩ fieldsC).1 = Except.ok (mkProduct (genId 0) fieldsC) ∧
    getProduct (createProduct ⟨[], [], 0⟩ fieldsC).2 (genId 0)
      = some (mkProduct (genId 0) fieldsC) :=
  claim_C6 ⟨[], [], 0⟩ fieldsC (by decide) (by decide)

/-- C7: editing an existing (valid) product with a change set containing
only `likes` yields exactly the prior record with `likes` replaced —
persisted under the same id — and every other stored record is
untouched. -/
theorem claim_C7 (st : AppState) (id : String) (p : Product) (n : Int)
    (hp : findProduct st id = some p) (hv : validateProduct p = true) :
    (editProduct st id { likes := some n }).1 = Except.ok { p with likes := some n } ∧
    findProduct (editProduct st id { likes := some n }).2 id
      = some { p with likes := some n } ∧
    ∀ q ∈ st.products, q._id ≠ id →
      q ∈ (editProduct st id { likes := some n }).2.products := by
  have hpc : applyProductChange p { likes := some n } = { p with likes := some n } := rfl
  have hv' : validateProduct { p with likes := some n } = true := by
    have h2 := hv
    simp only [validateProduct, Bool.and_eq_true] at h2 ⊢
    simp only [Option.isSome_some] at h2 ⊢
    tauto
  have hedit : editProduct st id { likes := some n } =
      (Except.ok ({ p with likes := some n } : Product),
        { st with products :=
            st.products.map (fun q => if q._id == id then { p with likes := some n } else q) }) := by
    simp [editProduct, hp, hpc, hv']
  refine ⟨by rw [hedit], ?_, ?_⟩
  · rw [hedit]
    exact find?_map_replace (fun q : Product => q._id) id p
      { p with likes := some n } st.products hp rfl
  · intro q hq hne
    rw [hedit]
    have hqid : ¬ (q._id == id) = true := by simpa using hne
    have himg := List.mem_map_of_mem
      (fun r : Product => if r._id == id then ({ p with likes := some n } : Product) else r) hq
    simp only [if_neg hqid] at himg
    exact himg

/-- Witness for C7 at the concrete state `stA`, editing `prodA`'s likes
to 5. -/
theorem claim_C7_witness :
    (editProduct stA "pA" { likes := some 5 }).1
      = Except.ok { prodA with likes := some 5 } ∧
    findProduct (editProduct stA "pA" { likes := some 5 }).2 "pA"
      = some { prodA with likes := some 5 } ∧
    ∀ q ∈ stA.products, q._id ≠ "pA" →
      q ∈ (editProduct stA "pA" { likes := some 5 }).2.products :=
  claim_C7 stA "pA" prodA 5 (by decide) (by decide)

/-- C9: for every id — present or absent — `destroy` succeeds (the
product variant acknowledging the delete), and afterwards, provided the
collections' ids are pairwise distinct (the unique `_id` index), no
record with that id remains: a subsequent `get` returns the not-found
signal on both services. -/
theorem claim_C9 (st : AppState) (id : String)
    (hp : st.products.Pairwise (fun a b => a._id ≠ b._id))
    (ho : st.orders.Pairwise (fun a b => a._id ≠ b._id)) :
    (destroyProduct st id).1.acknowledged = true ∧
    getProduct (destroyProduct st id).2 id = none ∧
    getOrder (destroyOrder st id) id = none := by
  refine ⟨rfl, ?_, ?_⟩
  · exact find?_eraseP_key (fun q : Product => q._id) id st.products hp
  · have h : findOrder (destroyOrder st id) id = none :=
      find?_eraseP_key (fun q : Order => q._id) id st.orders ho
    simp [getOrder, h]

/-- Witness for C9 at `stA`: deleting the present id "pA" and the
absent id "zz" both succeed, and the subsequent gets return none. -/
theorem claim_C9_witness :
    ((destroyProduct stA "pA").1.acknowledged = true ∧
      getProduct (destroyProduct stA "pA").2 "pA" = none ∧
      getOrder (destroyOrder stA "pA") "pA" = none) ∧
    ((destroyProduct stA "zz").1.acknowledged = true ∧
      getProduct (destroyProduct stA "zz").2 "zz" = none ∧
      getOrder (destroyOrder stA "zz") "zz" = none) :=
  ⟨claim_C9 stA "pA" (by decide) (by decide),
    claim_C9 stA "zz" (by decide) (by decide)⟩

/-- C8: an order created with `status` omitted (and valid fields, under
a fresh generated id) is returned and read back — via `get` on the new
state — as the denormalized view whose status is "CREATED"; and when
every referenced product id exists, the populated `products` pairs each
entry of the order's id list with the full referenced Product record. -/
theorem claim_C8 (st : AppState) (f : OrderFields)
    (hstat : f.status = none)
    (hmail : strPresent f.buyerEmail = true)
    (hprods : f.products.all (fun s => !s.isEmpty) = true)
    (hfresh : findOrder st (genId st.nextId) = none) :
    (createOrder st f).1 = Except.ok (populateOrder st (mkOrder (genId st.nextId) f)) ∧
    (populateOrder st (mkOrder (genId st.nextId) f)).status = "CREATED" ∧
    getOrder (createOrder st f).2 (genId st.nextId)
      = some (populateOrder st (mkOrder (genId st.nextId) f)) ∧
    ((∀ pid ∈ f.products, (getProduct st pid).isSome = true) →
      List.Forall₂ (fun pid pr => getProduct st pid = some pr) f.products
        (populateOrder st (mkOrder (genId st.nextId) f)).products) := by
  have hs : (mkOrder (genId st.nextId) f).status = "CREATED" := by
    simp [mkOrder, hstat]
  have hv : validateOrder (mkOrder (genId st.nextId) f) = true := by
    unfold validateOrder
    rw [hs]
    show (strPresent f.buyerEmail && (f.products.all fun s => !s.isEmpty)
      && statusEnum.contains "CREATED") = true
    rw [hmail, hprods]
    rfl
  refine ⟨?_, ?_, ?_, ?_⟩
  · simp [createOrder, hv]
  · simp [populateOrder]
    exact hs
  · have hco : (createOrder st f).2 =
        { st with orders := st.orders ++ [mkOrder (genId st.nextId) f],
                  nextId := st.nextId + 1 } := by
      simp [createOrder, hv]
    have hfresh' : st.orders.find? (fun q => q._id == genId st.nextId) = none := hfresh
    have hfind : (st.orders ++ [mkOrder (genId st.nextId) f]).find?
        (fun q => q._id == genId st.nextId) = some (mkOrder (genId st.nextId) f) := by
      rw [List.find?_append, hfresh']
      simp [mkOrder]
    rw [hco]
    show ((st.orders ++ [mkOrder (genId st.nextId) f]).find?
        (fun q => q._id == genId st.nextId)).map
        (populateOrder { st with orders := st.orders ++ [mkOrder (genId st.nextId) f],
                                 nextId := st.nextId + 1 })
      = some (populateOrder st (mkOrder (genId st.nextId) f))
    rw [hfind]
    rfl
  · intro hall
    exact forall2_filterMap_of_isSome (fun pid => findProduct st pid) f.products hall

/-- Witness for C8: creating `ordFields` (status omitted, referencing
the existing product "pA") at `stA`. -/
theorem claim_C8_witness :
    (createOrder stA ordFields).1
      = Except.ok (populateOrder stA (mkOrder (genId stA.nextId) ordFields)) ∧
    (populateOrder stA (mkOrder (genId stA.nextId) ordFields)).status = "CREATED" ∧
    getOrder (createOrder stA ordFields).2 (genId stA.nextId)
      = some (populateOrder stA (mkOrder (genId stA.nextId) ordFields)) ∧
    List.Forall₂ (fun pid pr => getProduct stA pid = some pr) ordFields.products
      (populateOrder stA (mkOrder (genId stA.nextId) ordFields)).products := by
  have h := claim_C8 stA ordFields rfl (by decide) (by decide) (by decide)
  exact ⟨h.1, h.2.1, h.2.2.1, h.2.2.2 (by decide)⟩

/-- C5: `Products.list` returns at most `limit` records, pairwise
sorted by identifier ascending; with a (non-falsy) `tag` every returned
product has a tag entry whose title equals `tag` exactly; and — with
`offset` 0 and `limit` at least the number of matches — every stored
product matching the tag is in the result, so the result is exactly the
matching products. -/
theorem claim_C5 (st : AppState) (o : ProductListOptions) (t : String) :
    (listProducts st o).length ≤ o.limit ∧
    (listProducts st o).Pairwise (fun a b => a._id ≤ b._id) ∧
    (o.tag = some t → t ≠ "" →
      ∀ p ∈ listProducts st o, p.tags.any (fun tg => tg.title == some t) = true) ∧
    (o.tag = some t → t ≠ "" → o.offset = 0 →
      (st.products.filter (productQuery o.tag)).length ≤ o.limit →
      ∀ p ∈ st.products, p.tags.any (fun tg => tg.title == some t) = true →
        p ∈ listProducts st o) := by
  have hsub : (listProducts st o).Sublist
      (sortProductsById (st.products.filter (productQuery o.tag))) :=
    ((List.take_sublist _ _).trans (List.drop_sublist _ _))
  refine ⟨?_, ?_, ?_, ?_⟩
  · exact List.length_take_le _ _
  · have hsort : (sortProductsById (st.products.filter (productQuery o.tag))).Pairwise
        (fun a b => a._id ≤ b._id) :=
      List.sorted_insertionSort (fun a b : Product => a._id ≤ b._id) _
    exact hsort.sublist hsub
  · intro htag hne p hp
    have hmem : p ∈ sortProductsById (st.products.filter (productQuery o.tag)) :=
      hsub.mem hp
    have hmem' : p ∈ st.products.filter (productQuery o.tag) :=
      (List.mem_insertionSort _).mp hmem
    have hq : productQuery o.tag p = true := (List.mem_filter.mp hmem').2
    rw [htag] at hq
    simpa [productQuery, if_neg hne] using hq
  · intro htag hne hoff hlen p hp hmatch
    have hq : productQuery o.tag p = true := by
      rw [htag]
      simpa [productQuery, if_neg hne] using hmatch
    have hmem : p ∈ st.products.filter (productQuery o.tag) :=
      List.mem_filter.mpr ⟨hp, hq⟩
    have hmem' : p ∈ sortProductsById (st.products.filter (productQuery o.tag)) :=
      (List.mem_insertionSort _).mpr hmem
    have hlen' : (sortProductsById (st.products.filter (productQuery o.tag))).length
        ≤ o.limit := by
      rw [sortProductsById, (List.perm_insertionSort _ _).length_eq]
      exact hlen
    unfold listProducts
    rw [hoff, List.drop_zero, List.take_of_length_le hlen']
    exact hmem'

/-- Witness for C5 at `stA` with tag "studio": the result's members all
carry the tag, and `prodA` (which carries it) is in the result. -/
theorem claim_C5_witness :
    (listProducts stA ⟨0, 25, some "studio"⟩).length ≤ 25 ∧
    (∀ p ∈ listProducts stA ⟨0, 25, some "studio"⟩,
      p.tags.any (fun tg => tg.title == some "studio") = true) ∧
    prodA ∈ listProducts stA ⟨0, 25, some "studio"⟩ := by
  have h := claim_C5 stA ⟨0, 25, some "studio"⟩ "studio"
  exact ⟨h.1, fun p hp => h.2.2.1 rfl (by decide) p hp,
    h.2.2.2 rfl (by decide) rfl (by decide) prodA (by decide) (by decide)⟩

end CrudApp
